import Mathlib

/-!
# Verification of the `analyze.py` batch reporting pipeline

Shallow embedding of `src/scripts/analyze.py`: a tool that discovers YAML
files in a directory, normalizes date scalars to ISO strings, validates each
document against a fixed JSON schema, extracts one flat Row per accepted
document, aggregates numeric statistics, writes a CSV artifact and a JSON
summary artifact, and exits non-zero when any file failed.

Python values parsed from YAML are modelled by the inductive `Yaml`
(mappings keep key order, as Python dicts do).  Numbers are modelled by `ℚ`
for YAML ints and finite floats, plus a dedicated `nan` node for the float
NaN that PyYAML produces from `.nan` (the jsonschema `number` check accepts
it, and pandas then treats the cell as missing).  The IEEE infinities from
`.inf` remain outside the model: they would require extended-real
statistics and do not affect the null-versus-NaN distinction.  Fallible
Python code is modelled with `Except`/`Sum`.
-/

/-- A parsed YAML document tree, as produced by `yaml.safe_load`:
mappings (ordered string keys), sequences, and scalars.  PyYAML
auto-converts date-like scalars into `datetime.date` / `datetime.datetime`
objects, modelled by the `date` and `datetime` constructors. -/
inductive Yaml where
  | null
  | bool (b : Bool)
  | num (q : ℚ)
  | nan
  | str (s : String)
  | date (y m d : Nat)
  | datetime (y mo d hh mi ss : Nat)
  | arr (items : List Yaml)
  | map (entries : List (String × Yaml))
deriving Repr

/-- Zero-pad a numeral to two digits, as Python `%02d`. -/
def pad2 (n : Nat) : String :=
  if n < 10 then "0" ++ toString n else toString n

/-- Zero-pad a numeral to four digits, as Python `%04d`. -/
def pad4 (n : Nat) : String :=
  if n < 10 then "000" ++ toString n
  else if n < 100 then "00" ++ toString n
  else if n < 1000 then "0" ++ toString n
  else toString n

/-- Python `datetime.date.isoformat()`: `YYYY-MM-DD`. -/
def isoDate (y m d : Nat) : String :=
  pad4 y ++ "-" ++ pad2 m ++ "-" ++ pad2 d

/-- Python `datetime.datetime.isoformat()` for whole-second times:
`YYYY-MM-DDTHH:MM:SS`. -/
def isoDatetime (y mo d hh mi ss : Nat) : String :=
  isoDate y mo d ++ "T" ++ pad2 hh ++ ":" ++ pad2 mi ++ ":" ++ pad2 ss

mutual

/-- The function `normalize_dates` from `analyze.py`: convert YAML-parsed
date/datetime objects into ISO strings, rebuilding dicts and lists
recursively and passing every other value through unchanged. -/
def normalize_dates : Yaml → Yaml
  | .date y m d => .str (isoDate y m d)
  | .datetime y mo d hh mi ss => .str (isoDatetime y mo d hh mi ss)
  | .map entries => .map (normalizeEntries entries)
  | .arr items => .arr (normalizeItems items)
  | .null => .null
  | .bool b => .bool b
  | .num q => .num q
  | .nan => .nan
  | .str s => .str s

/-- The list comprehension `[normalize_dates(v) for v in obj]`. -/
def normalizeItems : List Yaml → List Yaml
  | [] => []
  | v :: rest => normalize_dates v :: normalizeItems rest

/-- The dict comprehension `{k: normalize_dates(v) for k, v in obj.items()}`. -/
def normalizeEntries : List (String × Yaml) → List (String × Yaml)
  | [] => []
  | (k, v) :: rest => (k, normalize_dates v) :: normalizeEntries rest

end

/-! ## The schema validator

`jsonschema.validate(instance=data, schema=SCHEMA)` specialized to the
fixed `SCHEMA` constant of `analyze.py`: top-level object; optional
properties `name : string`, `value : number`, `tags : array of string`,
`metadata : object` whose optional `date` is a string or an object
(`anyOf`); `name` and `value` required; additional properties allowed
everywhere.  Success/failure is what matters downstream (`main` only keeps
`e.message`); messages follow jsonschema wording loosely. -/

/-- Python `dict.get(key)`: `some` value of the key, `none` when absent.
Documents produced by `yaml.safe_load` are Python dicts, so keys are
unique; lookup returns the first match. -/
def yLookup (entries : List (String × Yaml)) (key : String) : Option Yaml :=
  match entries with
  | [] => none
  | (k, v) :: rest => if k = key then some v else yLookup rest key

/-- Test `isinstance(v, str)` / jsonschema type `string`. -/
def isStr : Yaml → Bool
  | .str _ => true
  | _ => false

/-- jsonschema type `number`: Python `int`/`float`, with `bool` excluded
by the jsonschema type checker; float NaN is a float and passes. -/
def isNum : Yaml → Bool
  | .num _ => true
  | .nan => true
  | _ => false

/-- The subschema `{"type": "string"}`. -/
def typeString (v : Yaml) : Except String Unit :=
  if isStr v then .ok () else .error "is not of type string"

/-- The subschema `{"type": "number"}`. -/
def typeNumber (v : Yaml) : Except String Unit :=
  if isNum v then .ok () else .error "is not of type number"

/-- The subschema `{"type": "array", "items": {"type": "string"}}`. -/
def typeStringArray : Yaml → Except String Unit
  | .arr items =>
    if items.all isStr then .ok () else .error "is not of type string"
  | _ => .error "is not of type array"

/-- The subschema `{"anyOf": [{"type": "string"}, {"type": "object"}]}`
used for `metadata.date`. -/
def dateAnyOf : Yaml → Except String Unit
  | .str _ => .ok ()
  | .map _ => .ok ()
  | _ => .error "is not valid under any of the given schemas"

/-- The `metadata` subschema: an object whose optional `date` field
satisfies `dateAnyOf`; additional properties allowed. -/
def metadataSchema : Yaml → Except String Unit
  | .map m =>
    match yLookup m "date" with
    | some v => dateAnyOf v
    | none => .ok ()
  | _ => .error "is not of type object"

/-- A `properties` entry: the subschema applies only when the key is
present. -/
def checkProp (entries : List (String × Yaml)) (key : String)
    (sub : Yaml → Except String Unit) : Except String Unit :=
  match yLookup entries key with
  | some v => sub v
  | none => .ok ()

/-- A `required` entry: the key must be present. -/
def checkRequired (entries : List (String × Yaml)) (key : String) :
    Except String Unit :=
  if (yLookup entries key).isSome then .ok ()
  else .error (key ++ " is a required property")

/-- Sequence two checks: the first violation wins, as in
`jsonschema.validate`, which raises on the first error encountered. -/
def seqE (a b : Except String Unit) : Except String Unit :=
  match a with
  | .error m => .error m
  | .ok _ => b

/-- Validation: `jsonschema.validate` against the fixed `SCHEMA`. -/
def validateDoc : Yaml → Except String Unit
  | .map entries =>
    seqE (checkProp entries "name" typeString)
      (seqE (checkProp entries "value" typeNumber)
        (seqE (checkProp entries "tags" typeStringArray)
          (seqE (checkProp entries "metadata" metadataSchema)
            (seqE (checkRequired entries "name")
              (checkRequired entries "value")))))
  | _ => .error "is not of type object"

/-! ## Per-file processing (the body of the `for p in yaml_files` loop) -/

/-- One entry of the `errors` list: `{"file": str(p), "error": ...}`. -/
structure Err where
  file : String
  error : String
deriving Repr, DecidableEq

/-- One entry of the `rows` list: the flat record appended after a
document passes validation.  `name`/`value`/`date` hold the raw looked-up
YAML values (`none` models Python `None` from `dict.get` on a missing
key). -/
structure Row where
  file : String
  name : Option Yaml
  value : Option Yaml
  tags : Option String
  date : Option Yaml
deriving Repr

/-- Extract the string payload of a `.str` node. -/
def getStr : Yaml → Option String
  | .str s => some s
  | _ => none

/-- Python `",".join(xs)`: the comma-joined string when every element is a
string, a `TypeError` otherwise (which the per-file `except Exception`
records as the error of that file). -/
def joinComma (xs : List Yaml) : Except String String :=
  if xs.all isStr then .ok (String.intercalate "," (xs.filterMap getStr))
  else .error "sequence item: expected str instance"

/-- The expression `",".join(data.get("tags", [])) if isinstance(data.get("tags"), list)
else None`. -/
def extractTags (entries : List (String × Yaml)) :
    Except String (Option String) :=
  match yLookup entries "tags" with
  | some (.arr xs) => (joinComma xs).map some
  | _ => .ok none

/-- The expression `data.get("metadata") if isinstance(data.get("metadata"), dict) else
{}`. -/
def metadataEntries (entries : List (String × Yaml)) :
    List (String × Yaml) :=
  match yLookup entries "metadata" with
  | some (.map m) => m
  | _ => []

/-- The dict literal appended to `rows` for one validated document. -/
def buildRow (path : String) (entries : List (String × Yaml)) :
    Except String Row :=
  (extractTags entries).map (fun tags =>
    { file := path
      name := yLookup entries "name"
      value := yLookup entries "value"
      tags := tags
      date := yLookup (metadataEntries entries) "date" })

/-- One discovered input file: its path and the outcome of
`load_yaml_file` on it (`.error msg` models any exception raised while
opening or parsing the file, carrying `str(e)`). -/
structure InputFile where
  path : String
  parsed : Except String Yaml
deriving Repr

/-- One iteration of the processing loop: load → `normalize_dates` →
`validate` → append a row; a `ValidationError` is recorded with the
`"Schema validation failed: "` prefix, any other exception with its bare
message.  Exactly one of a `Row` or an `Err` results. -/
def processFile (f : InputFile) : Sum Row Err :=
  match f.parsed with
  | .error e => .inr ⟨f.path, e⟩
  | .ok raw =>
    match normalize_dates raw with
    | .map entries =>
      match validateDoc (.map entries) with
      | .error m => .inr ⟨f.path, "Schema validation failed: " ++ m⟩
      | .ok _ =>
        match buildRow f.path entries with
        | .ok r => .inl r
        | .error e => .inr ⟨f.path, e⟩
    | _ => .inr ⟨f.path, "Schema validation failed: is not of type object"⟩

/-- The whole loop: accumulate `rows` and `errors` over the files in
order. -/
def processAll : List InputFile → List Row × List Err
  | [] => ([], [])
  | f :: fs =>
    let rest := processAll fs
    match processFile f with
    | .inl r => (r :: rest.1, rest.2)
    | .inr e => (rest.1, e :: rest.2)

/-! ## Aggregation: the `summary` dict

`df = pd.DataFrame(rows)` and the `summary` literal of `main`.  The
`value` column entries pandas treats as valid (its
`count`/`mean`/`min`/`max` skip both `None` and float NaN) are
`colValues`.  The `if not df.empty` guards become `if rows.isEmpty` (a
`DataFrame` built from a list of dicts is empty iff the list is).  When
the frame is non-empty but every `value` is NaN, the statistics are the
float NaN, which `float(...)` keeps and `json.dumps` writes as the
literal `NaN` — not `null`; `JsonNum` keeps that distinction. -/

/-- The finite numeric payload of the `value` cell of a row; `none`
models an entry pandas skips (Python `None` or float NaN alike). -/
def rowNum (r : Row) : Option ℚ :=
  match r.value with
  | some (.num q) => some q
  | _ => none

/-- The non-null entries of the `value` column, in row order. -/
def colValues (rows : List Row) : List ℚ :=
  rows.filterMap rowNum

/-- Mean of a list of rationals, sum over count. -/
def ratMean (xs : List ℚ) : ℚ :=
  xs.sum / xs.length

/-- A float statistic as it reaches `summary.json`: a finite number, or
the float NaN that `json.dumps` writes as the literal `NaN`. -/
inductive JsonNum where
  | num (q : ℚ)
  | nan
deriving Repr, DecidableEq

/-- Pandas `Series.mean()` with skipna: NaN when no valid entry exists,
otherwise the mean of the valid entries. -/
def pandasMean (xs : List ℚ) : JsonNum :=
  if xs.isEmpty then .nan else .num (ratMean xs)

/-- Pandas `Series.min()` with skipna: NaN when no valid entry exists. -/
def pandasMin (xs : List ℚ) : JsonNum :=
  match xs.min? with
  | some q => .num q
  | none => .nan

/-- Pandas `Series.max()` with skipna: NaN when no valid entry exists. -/
def pandasMax (xs : List ℚ) : JsonNum :=
  match xs.max? with
  | some q => .num q
  | none => .nan

/-- The `summary` dict written to `summary.json`. -/
structure Summary where
  files_ok : Nat
  files_failed : Nat
  value_count : Nat
  value_mean : Option JsonNum
  value_min : Option JsonNum
  value_max : Option JsonNum
  plots : List String
  errors : List Err
deriving Repr

/-- The `summary` literal of `main`: `None` (null) statistics only on the
`df.empty` branch; otherwise the pandas statistics, which are the float
NaN when the non-empty column holds no valid entry. -/
def mkSummary (rows : List Row) (errors : List Err) : Summary :=
  { files_ok := rows.length
    files_failed := errors.length
    value_count := if rows.isEmpty then 0 else (colValues rows).length
    value_mean := if rows.isEmpty then none else some (pandasMean (colValues rows))
    value_min := if rows.isEmpty then none else some (pandasMin (colValues rows))
    value_max := if rows.isEmpty then none else some (pandasMax (colValues rows))
    plots := ["plots/value_hist.png", "plots/value_by_name.png",
              "plots/value_by_date.png"]
    errors := errors }

/-! ## The tabular artifact: `df.to_csv(out_dir / "summary.csv", index=False)`

Cells are rendered as pandas does: `str()` of the cell object, quoted when
it contains a comma, quote or newline; a missing value renders as the
empty cell.  Python string `repr` quoting (used inside containers) writes
single quotes; escaping of quotes inside such strings is not modelled.
Numeric formatting is canonical rational notation rather than Python float
notation.  `pd.DataFrame([])` has no columns at all, so for an empty row
list `to_csv` emits one blank line and no header. -/

/-- A single-quote character, for Python `repr` of strings. -/
def pyQuote : String :=
  String.singleton (Char.ofNat 39)

mutual

/-- Python `repr`, as used for elements inside containers. -/
def pyRepr : Yaml → String
  | .null => "None"
  | .bool b => if b then "True" else "False"
  | .num q => toString q
  | .nan => "nan"
  | .str s => pyQuote ++ s ++ pyQuote
  | .date y m d =>
    "datetime.date(" ++ toString y ++ ", " ++ toString m ++ ", "
      ++ toString d ++ ")"
  | .datetime y mo d hh mi ss =>
    "datetime.datetime(" ++ toString y ++ ", " ++ toString mo ++ ", "
      ++ toString d ++ ", " ++ toString hh ++ ", " ++ toString mi ++ ", "
      ++ toString ss ++ ")"
  | .arr items => "[" ++ String.intercalate ", " (pyReprList items) ++ "]"
  | .map entries =>
    "\x7b" ++ String.intercalate ", " (pyReprEntries entries) ++ "\x7d"

/-- Python `repr` of each list element. -/
def pyReprList : List Yaml → List String
  | [] => []
  | v :: rest => pyRepr v :: pyReprList rest

/-- Python `repr` of each dict entry, key then value. -/
def pyReprEntries : List (String × Yaml) → List String
  | [] => []
  | (k, v) :: rest => (pyQuote ++ k ++ pyQuote ++ ": " ++ pyRepr v) :: pyReprEntries rest

end

/-- Python `str()` of a cell object (a bare string prints unquoted). -/
def pyStrCell : Yaml → String
  | .str s => s
  | v => pyRepr v

/-- CSV minimal quoting. -/
def csvQuote (s : String) : String :=
  if s.contains ',' || s.contains '"' || s.contains '\n' then
    "\"" ++ (s.replace "\"" "\"\"") ++ "\""
  else s

/-- Render one cell of the frame; pandas writes a NaN cell (like a
missing one) as the empty cell. -/
def csvCellOf : Option Yaml → String
  | none => ""
  | some .nan => ""
  | some v => csvQuote (pyStrCell v)

/-- The header line: the row-dict keys in insertion order. -/
def csvHeader : String :=
  "file,name,value,tags,date"

/-- One data line of `summary.csv`. -/
def rowCsvLine (r : Row) : String :=
  String.intercalate ","
    [csvQuote r.file, csvCellOf r.name, csvCellOf r.value,
     (match r.tags with | none => "" | some s => csvQuote s),
     csvCellOf r.date]

/-- The lines of `summary.csv`: header then one line per row, except that
an empty frame (no rows, hence no columns) yields a single blank line. -/
def toCsvLines (rows : List Row) : List String :=
  if rows.isEmpty then [""]
  else csvHeader :: rows.map rowCsvLine

/-! ## Tree shape

The shape of a document tree: container structure (with mapping keys and
their order, and sequence element order) with every scalar collapsed to a
single point.  Two trees with the same shape are structurally identical up
to scalar payloads; `normalize_dates` preserves shape. -/

/-- Shape of a `Yaml` tree. -/
inductive Shape where
  | scalar
  | arr (l : List Shape)
  | map (l : List (String × Shape))
deriving Repr

mutual

/-- The shape of a tree. -/
def yamlShape : Yaml → Shape
  | .arr items => .arr (shapeItems items)
  | .map entries => .map (shapeEntries entries)
  | _ => .scalar

/-- Shapes of sequence elements, in order. -/
def shapeItems : List Yaml → List Shape
  | [] => []
  | v :: rest => yamlShape v :: shapeItems rest

/-- Shapes of mapping entries, keys kept in order. -/
def shapeEntries : List (String × Yaml) → List (String × Shape)
  | [] => []
  | (k, v) :: rest => (k, yamlShape v) :: shapeEntries rest

end

/-- Scalar nodes (neither a mapping nor a sequence). -/
def isScalar : Yaml → Bool
  | .arr _ => false
  | .map _ => false
  | _ => true

/-- Test `isinstance(obj, (date, datetime))`: the nodes `normalize_dates`
rewrites. -/
def isDateLike : Yaml → Bool
  | .date _ _ _ => true
  | .datetime _ _ _ _ _ _ => true
  | _ => false

/-! ## Concrete input fixtures used in counterexamples and witnesses -/

/-- A schema-valid document: `name: a, value: 3, tags: [x, y],
metadata: {date: "2026-01-15"}`. -/
def fileValid : InputFile :=
  ⟨"data/a.yml",
   .ok (.map [("name", .str "a"), ("value", .num 3),
              ("tags", .arr [.str "x", .str "y"]),
              ("metadata", .map [("date", .str "2026-01-15")])])⟩

/-- A file `yaml.safe_load` fails on. -/
def fileUnparsable : InputFile :=
  ⟨"data/broken.yml",
   .error "while parsing a block mapping: did not find expected key"⟩

/-- A document whose `tags` field is a scalar string: `name: b, value: 2,
tags: x`. -/
def fileTagsScalar : InputFile :=
  ⟨"data/scalar-tags.yml",
   .ok (.map [("name", .str "b"), ("value", .num 2), ("tags", .str "x")])⟩

/-- Fixture with `metadata.date` supplied as a YAML-native date object (PyYAML parses
the unquoted scalar `2026-01-15` into `datetime.date(2026, 1, 15)`). -/
def fileNativeDate : InputFile :=
  ⟨"data/native.yml",
   .ok (.map [("name", .str "c"), ("value", .num 5),
              ("metadata", .map [("date", .date 2026 1 15)])])⟩

/-- Fixture with `metadata.date` supplied as the quoted literal string
`"2026-01-15"`. -/
def fileLiteralDate : InputFile :=
  ⟨"data/literal.yml",
   .ok (.map [("name", .str "c"), ("value", .num 5),
              ("metadata", .map [("date", .str "2026-01-15")])])⟩

/-- The row `main` appends for `fileValid`. -/
def rowValid : Row :=
  { file := "data/a.yml", name := some (.str "a"), value := some (.num 3)
    tags := some "x,y", date := some (.str "2026-01-15") }

/-- The row `main` appends for `fileNativeDate`. -/
def rowNativeDate : Row :=
  { file := "data/native.yml", name := some (.str "c")
    value := some (.num 5), tags := none, date := some (.str "2026-01-15") }

/-- The row `main` appends for `fileLiteralDate`. -/
def rowLiteralDate : Row :=
  { file := "data/literal.yml", name := some (.str "c")
    value := some (.num 5), tags := none, date := some (.str "2026-01-15") }

/-! ## The run: `main` after argument parsing -/

/-- Process termination: normal return (exit code 0) or
`raise SystemExit(msg)` (exit code 1, `msg` printed to stderr). -/
inductive ExitStatus where
  | success
  | failure (msg : String)
deriving Repr, DecidableEq

/-- The observable outcome of one run: the exit status and the two
artifacts, `none` when the run aborted before writing them. -/
structure RunResult where
  exit : ExitStatus
  csv : Option (List String)
  summaryJson : Option Summary
deriving Repr

/-- The sort key of `sorted(...)` over the discovered paths. -/
def pathLe (a b : InputFile) : Bool :=
  a.path ≤ b.path

/-- Discovery, `sorted(list(input_dir.rglob("*.yml")) + list(input_dir.rglob("*.yaml")))`:
the two glob result lists concatenated, then sorted by path. -/
def discover (ymlFiles yamlFiles : List InputFile) : List InputFile :=
  (ymlFiles ++ yamlFiles).mergeSort pathLe

/-- The body of `main` after argument parsing: discovery (aborting when nothing
matched), the processing loop, writing `summary.csv` and `summary.json`
(in that order, before the exit decision), and the final exit.  Plot
rendering touches no artifact modelled here. -/
def run (inputDir outDir : String)
    (ymlFiles yamlFiles : List InputFile) : RunResult :=
  let yaml_files := discover ymlFiles yamlFiles
  if yaml_files.isEmpty then
    { exit := .failure ("No YAML files found in: " ++ inputDir)
      csv := none
      summaryJson := none }
  else
    let res := processAll yaml_files
    { exit :=
        if res.2.isEmpty then .success
        else .failure ("Validation/parse errors in " ++ toString res.2.length
          ++ " file(s). See " ++ outDir ++ "/summary.json")
      csv := some (toCsvLines res.1)
      summaryJson := some (mkSummary res.1 res.2) }


/-! ## Lemmas about the validator -/

theorem seqE_ok_iff {a b : Except String Unit} :
    seqE a b = .ok () ↔ a = .ok () ∧ b = .ok () := by
  cases a with
  | error m => simp [seqE]
  | ok u => cases u; simp [seqE]

theorem checkRequired_ok_iff {entries : List (String × Yaml)} {key : String} :
    checkRequired entries key = .ok () ↔ (yLookup entries key).isSome = true := by
  cases h : yLookup entries key <;> simp [checkRequired, h]

theorem isStr_iff {v : Yaml} : isStr v = true ↔ ∃ s, v = .str s := by
  cases v <;> simp [isStr]

theorem typeString_ok_iff {v : Yaml} :
    typeString v = .ok () ↔ isStr v = true := by
  by_cases h : isStr v = true <;> simp [typeString, h]

theorem typeNumber_ok_iff {v : Yaml} :
    typeNumber v = .ok () ↔ isNum v = true := by
  by_cases h : isNum v = true <;> simp [typeNumber, h]

/-- What a successful validation guarantees about the document: `name` is
a present string, `value` a present number node (a finite number or the
float NaN), and `tags`, when present, an array of strings. -/
theorem validateDoc_ok_parts {entries : List (String × Yaml)}
    (h : validateDoc (.map entries) = .ok ()) :
    (∃ s, yLookup entries "name" = some (.str s)) ∧
    (∃ v, yLookup entries "value" = some v ∧ isNum v = true) ∧
    (∀ t, yLookup entries "tags" = some t →
      ∃ xs, t = .arr xs ∧ xs.all isStr = true) := by
  simp only [validateDoc, seqE_ok_iff] at h
  obtain ⟨h1, h2, h3, h4, h5, h6⟩ := h
  rw [checkRequired_ok_iff] at h5 h6
  obtain ⟨nv, hnv⟩ := Option.isSome_iff_exists.mp h5
  obtain ⟨vv, hvv⟩ := Option.isSome_iff_exists.mp h6
  refine ⟨?_, ?_, ?_⟩
  · simp only [checkProp, hnv] at h1
    obtain ⟨s, rfl⟩ := isStr_iff.mp (typeString_ok_iff.mp h1)
    exact ⟨s, hnv⟩
  · simp only [checkProp, hvv] at h2
    exact ⟨vv, hvv, typeNumber_ok_iff.mp h2⟩
  · intro t ht
    simp only [checkProp, ht] at h3
    cases t with
    | arr xs =>
      refine ⟨xs, rfl, ?_⟩
      by_cases hall : xs.all isStr = true
      · exact hall
      · simp [typeStringArray, hall] at h3
    | null => simp [typeStringArray] at h3
    | bool b => simp [typeStringArray] at h3
    | num q => simp [typeStringArray] at h3
    | nan => simp [typeStringArray] at h3
    | str s => simp [typeStringArray] at h3
    | date y m d => simp [typeStringArray] at h3
    | datetime y mo d hh mi ss => simp [typeStringArray] at h3
    | map m => simp [typeStringArray] at h3

/-! ## Lemmas about per-file processing -/

theorem buildRow_ok_spec {path : String} {entries : List (String × Yaml)}
    {r : Row} (h : buildRow path entries = .ok r) :
    r.file = path ∧ r.name = yLookup entries "name" ∧
    r.value = yLookup entries "value" ∧
    r.date = yLookup (metadataEntries entries) "date" ∧
    (yLookup entries "tags" = none → r.tags = none) := by
  unfold buildRow at h
  cases he : extractTags entries with
  | error m => rw [he] at h; simp [Except.map] at h
  | ok tags =>
    rw [he] at h
    simp only [Except.map, Except.ok.injEq] at h
    subst h
    refine ⟨rfl, rfl, rfl, rfl, fun hnone => ?_⟩
    simp only [extractTags, hnone] at he
    exact (Except.ok.inj he).symm


theorem processFile_inl_spec {f : InputFile} {r : Row}
    (h : processFile f = .inl r) :
    r.file = f.path ∧ (∃ s, r.name = some (.str s)) ∧
    (∃ v, r.value = some v ∧ isNum v = true) := by
  unfold processFile at h
  cases hp : f.parsed with
  | error e => simp only [hp] at h; exact Sum.noConfusion h
  | ok raw =>
    simp only [hp] at h
    cases hn : normalize_dates raw <;> simp only [hn] at h <;>
      try exact Sum.noConfusion h
    case map entries =>
      cases hv : validateDoc (.map entries) with
      | error m => simp only [hv] at h; exact Sum.noConfusion h
      | ok u =>
        cases u
        simp only [hv] at h
        cases hb : buildRow f.path entries with
        | error e => simp only [hb] at h; exact Sum.noConfusion h
        | ok r0 =>
          simp only [hb] at h
          obtain rfl : r0 = r := Sum.inl.inj h
          obtain ⟨hfile, hname, hvalue, _, _⟩ := buildRow_ok_spec hb
          obtain ⟨⟨s, hs⟩, ⟨v, hv2, hvn⟩, _⟩ := validateDoc_ok_parts hv
          exact ⟨hfile, ⟨s, by rw [hname, hs]⟩,
            ⟨v, by rw [hvalue, hv2], hvn⟩⟩

theorem processFile_inr_file {f : InputFile} {e : Err}
    (h : processFile f = .inr e) : e.file = f.path := by
  unfold processFile at h
  cases hp : f.parsed with
  | error m =>
    simp only [hp] at h
    obtain rfl := Sum.inr.inj h; rfl
  | ok raw =>
    simp only [hp] at h
    cases hn : normalize_dates raw <;> simp only [hn] at h <;>
      try (obtain rfl := Sum.inr.inj h; rfl)
    case map entries =>
      cases hv : validateDoc (.map entries) with
      | error m =>
        simp only [hv] at h
        obtain rfl := Sum.inr.inj h; rfl
      | ok u =>
        cases u
        simp only [hv] at h
        cases hb : buildRow f.path entries with
        | error m =>
          simp only [hb] at h
          obtain rfl := Sum.inr.inj h; rfl
        | ok r0 => simp only [hb] at h; exact Sum.noConfusion h

theorem processAll_nil : processAll [] = ([], []) := rfl

theorem processAll_cons (f : InputFile) (fs : List InputFile) :
    processAll (f :: fs) =
      match processFile f with
      | .inl r => (r :: (processAll fs).1, (processAll fs).2)
      | .inr e => ((processAll fs).1, e :: (processAll fs).2) := rfl

/-- Every file contributes exactly one row or one error:
`files_ok + files_failed` equals the file count. -/
theorem processAll_length (fs : List InputFile) :
    (processAll fs).1.length + (processAll fs).2.length = fs.length := by
  induction fs with
  | nil => rfl
  | cons f fs ih =>
    rw [processAll_cons]
    cases hpf : processFile f <;> simp <;> omega

/-- Every accumulated row came from processing some file. -/
theorem processAll_row_mem {fs : List InputFile} {r : Row}
    (h : r ∈ (processAll fs).1) : ∃ f, processFile f = .inl r := by
  induction fs with
  | nil => simp [processAll_nil] at h
  | cons f fs ih =>
    rw [processAll_cons] at h
    cases hpf : processFile f <;> rw [hpf] at h
    case inl r0 =>
      rcases List.mem_cons.mp h with rfl | hmem
      · exact ⟨f, hpf⟩
      · exact ih hmem
    case inr e => exact ih h

/-- The accumulated rows carry the processed file paths, in filter
order. -/
theorem processAll_rows_files (fs : List InputFile) :
    (processAll fs).1.map Row.file =
      (fs.filter (fun f => (processFile f).isLeft)).map InputFile.path := by
  induction fs with
  | nil => rfl
  | cons f fs ih =>
    rw [processAll_cons]
    cases hpf : processFile f with
    | inl r =>
      have hfile := (processFile_inl_spec hpf).1
      simp [List.filter_cons, hpf, hfile, ih]
    | inr e => simp [List.filter_cons, hpf, ih]

/-- The accumulated errors carry the failing file paths, in filter
order. -/
theorem processAll_errs_files (fs : List InputFile) :
    (processAll fs).2.map Err.file =
      (fs.filter (fun f => (processFile f).isRight)).map InputFile.path := by
  induction fs with
  | nil => rfl
  | cons f fs ih =>
    rw [processAll_cons]
    cases hpf : processFile f with
    | inl r => simp [List.filter_cons, hpf, ih]
    | inr e =>
      have hfile := processFile_inr_file hpf
      simp [List.filter_cons, hpf, hfile, ih]

/-! ## Lemmas about discovery -/

theorem pathLe_trans : ∀ a b c : InputFile,
    pathLe a b → pathLe b c → pathLe a c := by
  intro a b c hab hbc
  simp only [pathLe, decide_eq_true_eq] at *
  exact le_trans hab hbc

theorem pathLe_total : ∀ a b : InputFile, pathLe a b || pathLe b a := by
  intro a b
  simp only [pathLe, Bool.or_eq_true, decide_eq_true_eq]
  exact le_total a.path b.path

/-- Discovery yields a permutation of the two glob lists combined. -/
theorem discover_perm (ymlFiles yamlFiles : List InputFile) :
    List.Perm (discover ymlFiles yamlFiles) (ymlFiles ++ yamlFiles) :=
  List.mergeSort_perm _ _

/-- Discovered paths are in ascending lexicographic order. -/
theorem discover_sorted (ymlFiles yamlFiles : List InputFile) :
    List.Sorted (· ≤ ·) ((discover ymlFiles yamlFiles).map InputFile.path) := by
  have h := List.sorted_mergeSort pathLe_trans pathLe_total
    (ymlFiles ++ yamlFiles)
  rw [List.Sorted, List.pairwise_map]
  exact h.imp (fun hab => by
    simpa only [pathLe, decide_eq_true_eq] using hab)

theorem discover_eq_nil_iff {ymlFiles yamlFiles : List InputFile} :
    discover ymlFiles yamlFiles = [] ↔ ymlFiles ++ yamlFiles = [] := by
  constructor <;> intro h
  · have hp := discover_perm ymlFiles yamlFiles
    rw [h] at hp
    exact (hp.symm.eq_nil)
  · simp [discover, h]

theorem discover_length (ymlFiles yamlFiles : List InputFile) :
    (discover ymlFiles yamlFiles).length = (ymlFiles ++ yamlFiles).length :=
  (discover_perm ymlFiles yamlFiles).length_eq

/-! ## Lemmas about `normalize_dates` -/

mutual

theorem normalize_dates_idem : ∀ y,
    normalize_dates (normalize_dates y) = normalize_dates y
  | .null => rfl
  | .bool _ => rfl
  | .num _ => rfl
  | .nan => rfl
  | .str _ => rfl
  | .date _ _ _ => rfl
  | .datetime _ _ _ _ _ _ => rfl
  | .arr items => congrArg Yaml.arr (normalizeItems_idem items)
  | .map entries => congrArg Yaml.map (normalizeEntries_idem entries)

theorem normalizeItems_idem : ∀ l,
    normalizeItems (normalizeItems l) = normalizeItems l
  | [] => rfl
  | v :: rest =>
    congrArg₂ List.cons (normalize_dates_idem v) (normalizeItems_idem rest)

theorem normalizeEntries_idem : ∀ l,
    normalizeEntries (normalizeEntries l) = normalizeEntries l
  | [] => rfl
  | (k, v) :: rest =>
    congrArg₂ List.cons (congrArg (Prod.mk k) (normalize_dates_idem v))
      (normalizeEntries_idem rest)

end

mutual

theorem shape_normalize : ∀ y, yamlShape (normalize_dates y) = yamlShape y
  | .null => rfl
  | .bool _ => rfl
  | .num _ => rfl
  | .nan => rfl
  | .str _ => rfl
  | .date _ _ _ => rfl
  | .datetime _ _ _ _ _ _ => rfl
  | .arr items => congrArg Shape.arr (shape_normalizeItems items)
  | .map entries => congrArg Shape.map (shape_normalizeEntries entries)

theorem shape_normalizeItems : ∀ l,
    shapeItems (normalizeItems l) = shapeItems l
  | [] => rfl
  | v :: rest =>
    congrArg₂ List.cons (shape_normalize v) (shape_normalizeItems rest)

theorem shape_normalizeEntries : ∀ l,
    shapeEntries (normalizeEntries l) = shapeEntries l
  | [] => rfl
  | (k, v) :: rest =>
    congrArg₂ List.cons (congrArg (Prod.mk k) (shape_normalize v))
      (shape_normalizeEntries rest)

end

/-- Normalization preserves mapping keys and their order. -/
theorem normalizeEntries_keys : ∀ l : List (String × Yaml),
    (normalizeEntries l).map Prod.fst = l.map Prod.fst
  | [] => rfl
  | (k, _) :: rest => congrArg (List.cons k) (normalizeEntries_keys rest)

/-- Scalars other than dates and datetimes pass through unchanged. -/
theorem normalize_dates_scalar {y : Yaml} (h1 : isScalar y = true)
    (h2 : isDateLike y = false) : normalize_dates y = y := by
  cases y with
  | arr items => simp [isScalar] at h1
  | map entries => simp [isScalar] at h1
  | date y m d => simp [isDateLike] at h2
  | datetime y mo d hh mi ss => simp [isDateLike] at h2
  | null => rfl
  | bool b => rfl
  | num q => rfl
  | nan => rfl
  | str s => rfl

/-! ## Lemmas about the run -/

theorem discover_isEmpty_false {ymlFiles yamlFiles : List InputFile}
    (h : ymlFiles ++ yamlFiles ≠ []) :
    (discover ymlFiles yamlFiles).isEmpty = false := by
  rw [List.isEmpty_eq_false_iff_exists_mem]
  obtain ⟨f, hf⟩ := List.exists_mem_of_ne_nil _ h
  exact ⟨f, (discover_perm ymlFiles yamlFiles).mem_iff.mpr hf⟩

/-- The run on a non-empty discovery set: artifacts written, exit decided
by the error list. -/
theorem run_nonempty_eq (inputDir outDir : String)
    (ymlFiles yamlFiles : List InputFile) (h : ymlFiles ++ yamlFiles ≠ []) :
    run inputDir outDir ymlFiles yamlFiles =
      { exit :=
          if (processAll (discover ymlFiles yamlFiles)).2.isEmpty then
            .success
          else
            .failure ("Validation/parse errors in "
              ++ toString (processAll (discover ymlFiles yamlFiles)).2.length
              ++ " file(s). See " ++ outDir ++ "/summary.json")
        csv := some (toCsvLines (processAll (discover ymlFiles yamlFiles)).1)
        summaryJson := some (mkSummary
          (processAll (discover ymlFiles yamlFiles)).1
          (processAll (discover ymlFiles yamlFiles)).2) } := by
  rw [run]
  simp only [discover_isEmpty_false h, Bool.false_eq_true, if_false]

/-- The run on an empty discovery set: abort before writing anything. -/
theorem run_empty_eq (inputDir outDir : String)
    (ymlFiles yamlFiles : List InputFile) (h : ymlFiles ++ yamlFiles = []) :
    run inputDir outDir ymlFiles yamlFiles =
      { exit := .failure ("No YAML files found in: " ++ inputDir)
        csv := none
        summaryJson := none } := by
  rw [run]
  simp only [discover_eq_nil_iff.mpr h, List.isEmpty_nil, if_true]

/-! ## Claim theorems -/

/-- C1: over a discovered input set, each file contributes exactly one Row
(on success) or exactly one error entry (on any load/normalize/validate
failure), never both and never neither, so the summary field
`files_ok + files_failed` equals the number of discovered matching
files. -/
theorem C1_row_error_partition (inputDir outDir : String)
    (ymlFiles yamlFiles : List InputFile) (h : ymlFiles ++ yamlFiles ≠ []) :
    (∀ f : InputFile,
      ((∃ r, processFile f = .inl r) ∨ (∃ e, processFile f = .inr e)) ∧
      ¬((∃ r, processFile f = .inl r) ∧ (∃ e, processFile f = .inr e))) ∧
    ∃ s, (run inputDir outDir ymlFiles yamlFiles).summaryJson = some s ∧
      s.files_ok + s.files_failed = (ymlFiles ++ yamlFiles).length := by
  constructor
  · intro f
    constructor
    · cases hpf : processFile f with
      | inl r => exact Or.inl ⟨r, rfl⟩
      | inr e => exact Or.inr ⟨e, rfl⟩
    · rintro ⟨⟨r, hr⟩, ⟨e, he⟩⟩
      rw [hr] at he
      exact Sum.noConfusion he
  · refine ⟨mkSummary (processAll (discover ymlFiles yamlFiles)).1
      (processAll (discover ymlFiles yamlFiles)).2, ?_, ?_⟩
    · rw [run_nonempty_eq inputDir outDir ymlFiles yamlFiles h]
    · simp only [mkSummary]
      exact (processAll_length _).trans (discover_length _ _)

/-- C1 witness: a single valid file gives `files_ok + files_failed = 1`. -/
theorem C1_witness :
    ∃ s, (run "data" "out" [fileValid] []).summaryJson = some s ∧
      s.files_ok + s.files_failed =
        ([fileValid] ++ ([] : List InputFile)).length :=
  (C1_row_error_partition "data" "out" [fileValid] [] (by simp)).2

/-- C2: exit 0 when every discovered file was accepted; `SystemExit` with
a message counting the failed files and naming the summary artifact when
at least one failed; `SystemExit` with a message naming the scanned
directory when nothing matched. -/
theorem C2_exit_contract (inputDir outDir : String)
    (ymlFiles yamlFiles : List InputFile) :
    (ymlFiles ++ yamlFiles = [] →
      (run inputDir outDir ymlFiles yamlFiles).exit =
        .failure ("No YAML files found in: " ++ inputDir)) ∧
    (ymlFiles ++ yamlFiles ≠ [] →
      (processAll (discover ymlFiles yamlFiles)).2 = [] →
      (run inputDir outDir ymlFiles yamlFiles).exit = .success) ∧
    ((processAll (discover ymlFiles yamlFiles)).2 ≠ [] →
      (run inputDir outDir ymlFiles yamlFiles).exit =
        .failure ("Validation/parse errors in "
          ++ toString (processAll (discover ymlFiles yamlFiles)).2.length
          ++ " file(s). See " ++ outDir ++ "/summary.json")) := by
  refine ⟨fun h => ?_, fun h he => ?_, fun he => ?_⟩
  · rw [run_empty_eq _ _ _ _ h]
  · rw [run_nonempty_eq _ _ _ _ h]
    simp [he]
  · have h : ymlFiles ++ yamlFiles ≠ [] := by
      intro hc
      apply he
      rw [discover_eq_nil_iff.mpr hc, processAll_nil]
    have hb : (processAll (discover ymlFiles yamlFiles)).2.isEmpty = false := by
      cases hl : (processAll (discover ymlFiles yamlFiles)).2 with
      | nil => exact absurd hl he
      | cons a l => rfl
    rw [run_nonempty_eq _ _ _ _ h]
    simp [hb]

/-- C2 witness: one unparsable file gives the counted failure message. -/
theorem C2_witness :
    (run "data" "out" [fileUnparsable] []).exit =
      ExitStatus.failure
        ("Validation/parse errors in 1 file(s). See out/summary.json") := by
  have hd : discover [fileUnparsable] [] = [fileUnparsable] := by
    simp [discover]
  have hne : (processAll (discover [fileUnparsable] [])).2 ≠ [] := by
    rw [hd]
    intro hc
    exact List.noConfusion hc
  have h3 := (C2_exit_contract "data" "out" [fileUnparsable] []).2.2 hne
  rw [hd] at h3
  exact h3

/-- C6: when at least one file failed, `summary.csv` and `summary.json`
are still written, covering the accepted subset, before the failing exit;
and the summary field `plots` list is always exactly the three conventional
chart paths. -/
theorem C6_artifacts_on_failure (inputDir outDir : String)
    (ymlFiles yamlFiles : List InputFile)
    (h : (processAll (discover ymlFiles yamlFiles)).2 ≠ []) :
    (∃ m, (run inputDir outDir ymlFiles yamlFiles).exit = .failure m) ∧
    (run inputDir outDir ymlFiles yamlFiles).csv =
      some (toCsvLines (processAll (discover ymlFiles yamlFiles)).1) ∧
    ∃ s, (run inputDir outDir ymlFiles yamlFiles).summaryJson = some s ∧
      s.files_ok = (processAll (discover ymlFiles yamlFiles)).1.length ∧
      s.errors = (processAll (discover ymlFiles yamlFiles)).2 ∧
      s.plots = ["plots/value_hist.png", "plots/value_by_name.png",
                 "plots/value_by_date.png"] := by
  have hne : ymlFiles ++ yamlFiles ≠ [] := by
    intro hc
    apply h
    rw [discover_eq_nil_iff.mpr hc, processAll_nil]
  have hb : (processAll (discover ymlFiles yamlFiles)).2.isEmpty = false := by
    cases hl : (processAll (discover ymlFiles yamlFiles)).2 with
    | nil => exact absurd hl h
    | cons a l => rfl
  have hexit : (run inputDir outDir ymlFiles yamlFiles).exit =
      .failure ("Validation/parse errors in "
        ++ toString (processAll (discover ymlFiles yamlFiles)).2.length
        ++ " file(s). See " ++ outDir ++ "/summary.json") := by
    rw [run_nonempty_eq _ _ _ _ hne]
    simp [hb]
  refine ⟨⟨_, hexit⟩, ?_, ?_⟩
  · rw [run_nonempty_eq _ _ _ _ hne]
  · rw [run_nonempty_eq _ _ _ _ hne]
    exact ⟨mkSummary (processAll (discover ymlFiles yamlFiles)).1
      (processAll (discover ymlFiles yamlFiles)).2, rfl, rfl, rfl, rfl⟩

/-- C6 witness: a run over one unparsable file writes both artifacts and
exits with a failure. -/
theorem C6_witness :
    (∃ m, (run "data" "out" [fileUnparsable] []).exit = .failure m) ∧
    (run "data" "out" [fileUnparsable] []).csv =
      some (toCsvLines (processAll (discover [fileUnparsable] [])).1) ∧
    ∃ s, (run "data" "out" [fileUnparsable] []).summaryJson = some s ∧
      s.files_ok = (processAll (discover [fileUnparsable] [])).1.length ∧
      s.errors = (processAll (discover [fileUnparsable] [])).2 ∧
      s.plots = ["plots/value_hist.png", "plots/value_by_name.png",
                 "plots/value_by_date.png"] :=
  C6_artifacts_on_failure "data" "out" [fileUnparsable] [] (by
    have hd : discover [fileUnparsable] [] = [fileUnparsable] := by
      simp [discover]
    rw [hd]
    intro hc
    exact List.noConfusion hc)

/-- C7 counterexample: a run in which zero documents are accepted (one
unparsable file) writes a tabular artifact consisting of a single blank
line — the header row `file,name,value,tags,date` is absent, refuting the
claim for the zero-accepted case. -/
theorem C7_counterexample :
    (run "data" "out" [fileUnparsable] []).csv = some [""] ∧
    "file,name,value,tags,date" ∉ ([""] : List String) := by
  constructor
  · have hd : discover [fileUnparsable] [] = [fileUnparsable] := by
      simp [discover]
    rw [run, hd]
    rfl
  · simp

/-- C7 as amended: whenever at least one document is accepted the tabular
artifact is the header row `file,name,value,tags,date` followed by exactly
one data line per accepted document in order; when zero documents are
accepted the artifact is a single blank line with no header (an empty
`DataFrame` has no columns). -/
theorem C7_amended_csv_layout (inputDir outDir : String)
    (ymlFiles yamlFiles : List InputFile) (h : ymlFiles ++ yamlFiles ≠ []) :
    ∃ ls, (run inputDir outDir ymlFiles yamlFiles).csv = some ls ∧
      ((processAll (discover ymlFiles yamlFiles)).1 ≠ [] →
        ls = csvHeader ::
          ((processAll (discover ymlFiles yamlFiles)).1).map rowCsvLine) ∧
      ((processAll (discover ymlFiles yamlFiles)).1 = [] → ls = [""]) := by
  rw [run_nonempty_eq _ _ _ _ h]
  refine ⟨toCsvLines (processAll (discover ymlFiles yamlFiles)).1, rfl,
    fun hne => ?_, fun hnil => ?_⟩
  · have hb : ((processAll (discover ymlFiles yamlFiles)).1).isEmpty = false := by
      cases hl : (processAll (discover ymlFiles yamlFiles)).1 with
      | nil => exact absurd hl hne
      | cons a l => rfl
    simp [toCsvLines, hb]
  · simp [toCsvLines, hnil]

/-- C7 witness: one accepted document gives the header plus one data
line. -/
theorem C7_witness :
    ∃ ls, (run "data" "out" [fileValid] []).csv = some ls ∧
      ls = csvHeader ::
        ((processAll (discover [fileValid] [])).1).map rowCsvLine := by
  obtain ⟨ls, hls, h1, h2⟩ :=
    C7_amended_csv_layout "data" "out" [fileValid] [] (by simp)
  have hd : discover [fileValid] [] = [fileValid] := by
    simp [discover]
  refine ⟨ls, hls, h1 ?_⟩
  rw [hd]
  intro hc
  exact List.noConfusion hc

/-- C8: files are discovered by sorting the two glob lists combined, are
processed in that order, and the rows and recorded errors carry the
discovered paths in that same sorted order. -/
theorem C8_sorted_processing_order (ymlFiles yamlFiles : List InputFile) :
    List.Perm (discover ymlFiles yamlFiles) (ymlFiles ++ yamlFiles) ∧
    List.Sorted (· ≤ ·) ((discover ymlFiles yamlFiles).map InputFile.path) ∧
    (processAll (discover ymlFiles yamlFiles)).1.map Row.file =
      ((discover ymlFiles yamlFiles).filter
        (fun f => (processFile f).isLeft)).map InputFile.path ∧
    (processAll (discover ymlFiles yamlFiles)).2.map Err.file =
      ((discover ymlFiles yamlFiles).filter
        (fun f => (processFile f).isRight)).map InputFile.path :=
  ⟨discover_perm _ _, discover_sorted _ _,
   processAll_rows_files _, processAll_errs_files _⟩

/-- C9: date normalization is idempotent — a second pass over an already
normalized tree changes nothing. -/
theorem C9_normalize_dates_idempotent :
    ∀ y, normalize_dates (normalize_dates y) = normalize_dates y :=
  normalize_dates_idem

/-- C10: every accepted Row carries a non-null string `name` and a
non-null numeric `value` — validation requires both before extraction, so
neither field is ever Python `None` or the YAML null.  The number may be
the float NaN (e.g. from `value: .nan`), which is a non-null float to
Python even though pandas later skips it. -/
theorem C10_accepted_rows_typed (f : InputFile) (r : Row)
    (h : processFile f = .inl r) :
    (∃ s, r.name = some (.str s)) ∧
    (∃ v, r.value = some v ∧ isNum v = true) ∧
    r.value ≠ none ∧ r.value ≠ some .null := by
  obtain ⟨_, hn, v, hv, hvn⟩ := processFile_inl_spec h
  refine ⟨hn, ⟨v, hv, hvn⟩, ?_, ?_⟩
  · rw [hv]
    exact Option.noConfusion
  · rw [hv]
    intro hc
    obtain rfl := Option.some.inj hc
    exact Bool.noConfusion hvn

/-- C10 witness: the row extracted from `fileValid` has string name `a`
and the numeric, non-null value `3`. -/
theorem C10_witness :
    processFile fileValid = Sum.inl rowValid ∧
    ((∃ s, rowValid.name = some (.str s)) ∧
     (∃ v, rowValid.value = some v ∧ isNum v = true) ∧
     rowValid.value ≠ none ∧ rowValid.value ≠ some .null) :=
  ⟨rfl, C10_accepted_rows_typed fileValid rowValid rfl⟩

/-- C4 counterexample: a document whose `tags` field is the scalar string
`"x"` does not yield a Row with null tags — the schema
`{"type": "array"}` constraint rejects it and exactly one error entry is
recorded for the file. -/
theorem C4_counterexample :
    processFile fileTagsScalar =
      Sum.inr { file := "data/scalar-tags.yml",
                error := "Schema validation failed: is not of type array" } :=
  rfl

/-- C4 as amended: a present `tags` field that is a scalar string fails
schema validation, so the file yields a ValidationError and no Row; the
`tags`-to-null normalization applies only when the `tags` field is
absent. -/
theorem C4_amended_scalar_tags (f : InputFile) (raw : Yaml)
    (entries : List (String × Yaml)) (hp : f.parsed = .ok raw)
    (hn : normalize_dates raw = .map entries) :
    ((∃ s, yLookup entries "tags" = some (.str s)) →
      ∃ e, processFile f = .inr e ∧ e.file = f.path) ∧
    (yLookup entries "tags" = none →
      ∀ r, processFile f = .inl r → r.tags = none) := by
  constructor
  · rintro ⟨s, hs⟩
    cases hv : validateDoc (.map entries) with
    | ok u =>
      cases u
      obtain ⟨_, _, htags⟩ := validateDoc_ok_parts hv
      obtain ⟨xs, hxs, _⟩ := htags _ hs
      exact Yaml.noConfusion hxs
    | error m =>
      refine ⟨⟨f.path, "Schema validation failed: " ++ m⟩, ?_, rfl⟩
      unfold processFile
      simp only [hp, hn, hv]
  · intro htags r hpf
    unfold processFile at hpf
    simp only [hp, hn] at hpf
    cases hv : validateDoc (.map entries) with
    | error m => simp only [hv] at hpf; exact Sum.noConfusion hpf
    | ok u =>
      cases u
      simp only [hv] at hpf
      cases hb : buildRow f.path entries with
      | error e => simp only [hb] at hpf; exact Sum.noConfusion hpf
      | ok r0 =>
        simp only [hb] at hpf
        obtain rfl : r0 = r := Sum.inl.inj hpf
        exact (buildRow_ok_spec hb).2.2.2.2 htags

/-- C4 witness: the scalar-tags fixture is rejected with an error entry,
and the accepted fixture without a `tags` field gets null tags. -/
theorem C4_witness :
    (∃ e, processFile fileTagsScalar = Sum.inr e ∧
      e.file = fileTagsScalar.path) ∧
    rowNativeDate.tags = none :=
  ⟨(C4_amended_scalar_tags fileTagsScalar
      (.map [("name", .str "b"), ("value", .num 2), ("tags", .str "x")])
      [("name", .str "b"), ("value", .num 2), ("tags", .str "x")]
      rfl rfl).1 ⟨"x", rfl⟩,
   (C4_amended_scalar_tags fileNativeDate
      (.map [("name", .str "c"), ("value", .num 5),
             ("metadata", .map [("date", .date 2026 1 15)])])
      [("name", .str "c"), ("value", .num 5),
       ("metadata", .map [("date", .str "2026-01-15")])]
      rfl rfl).2 rfl rowNativeDate rfl⟩

/-- C5: normalization rewrites every date node to its `YYYY-MM-DD` ISO
string and every datetime node to its full ISO string, preserves the tree
shape (mapping keys and order, sequence order), passes every other scalar
through unchanged, and a date given as a native date object or as the
equivalent literal string produces the same Row `date` field. -/
theorem C5_normalization_contract :
    (∀ y m d, normalize_dates (.date y m d) = .str (isoDate y m d)) ∧
    (∀ y mo d hh mi ss,
      normalize_dates (.datetime y mo d hh mi ss) =
        .str (isoDatetime y mo d hh mi ss)) ∧
    (∀ y, yamlShape (normalize_dates y) = yamlShape y) ∧
    (∀ l : List (String × Yaml),
      (normalizeEntries l).map Prod.fst = l.map Prod.fst) ∧
    (∀ y, isScalar y = true → isDateLike y = false →
      normalize_dates y = y) ∧
    (processFile fileNativeDate = Sum.inl rowNativeDate ∧
     processFile fileLiteralDate = Sum.inl rowLiteralDate ∧
     rowNativeDate.date = rowLiteralDate.date ∧
     rowNativeDate.date = some (.str "2026-01-15")) :=
  ⟨fun _ _ _ => rfl, fun _ _ _ _ _ _ => rfl, shape_normalize,
   normalizeEntries_keys,
   fun _ h1 h2 => normalize_dates_scalar h1 h2,
   rfl, rfl, rfl, rfl⟩

/-- C5 witness: the scalar pass-through clause applied to a plain
string. -/
theorem C5_witness :
    (isScalar (Yaml.str "2026-01-15") = true ∧
     isDateLike (Yaml.str "2026-01-15") = false) ∧
    normalize_dates (Yaml.str "2026-01-15") = Yaml.str "2026-01-15" :=
  ⟨⟨rfl, rfl⟩,
   C5_normalization_contract.2.2.2.2.1 (Yaml.str "2026-01-15") rfl rfl⟩
